import Mathlib

/-!
Shallow embedding of the vote ledger / vote counter core of the
feature-voting repository.

The database schema is the one installed by
migrations/20250824120000_initial_schema.sql: tables users, features
(with a denormalized vote_count INTEGER DEFAULT 0), votes with
UNIQUE(user_id, feature_id) and foreign keys to users and features,
and the two row triggers vote_count_increment (AFTER INSERT ON votes)
and vote_count_decrement (AFTER DELETE ON votes), each adjusting
features.vote_count by one for the affected feature.  The triggers are
never dropped by a later migration, so every SQL statement issued by
the Go code runs against this trigger-bearing schema; the trigger
effects are therefore part of the semantics of INSERT INTO votes and
DELETE FROM votes below.

Two Go implementations operate on this schema and are embedded side by
side:
 * namespace Internal: backend/internal/repository (AddVote only
   inserts the vote row, RemoveVote only deletes it; vote_count is
   maintained by the triggers alone);
 * namespace Postgres: backend/adapters/postgres/feature_repository.go
   (AddVote / RemoveVote additionally run an explicit
   UPDATE features SET vote_count = vote_count ± 1).
 * namespace Rest: backend/adapters/rest/vote_handler.go, the handler
   layer that maps repository outcomes to AlreadyVoted / VoteNotFound /
   FeatureNotFound responses.

Timestamps are modelled by a logical clock that increases on every
vote insertion, so created_at of later votes is strictly larger.
-/

/-- One row of the votes table: id, user_id, feature_id, created_at. -/
structure Vote where
  id : Nat
  userId : Nat
  featureId : Nat
  createdAt : Nat
deriving DecidableEq, Repr

/-- One row of the features table (the columns the core touches). -/
structure Feature where
  id : Nat
  title : String
  description : String
  createdBy : Nat
  voteCount : Int
deriving DecidableEq, Repr

/-- Committed database state: the users table is reduced to its ids,
features and votes are full rows; nextFeatureId / nextVoteId model the
SERIAL sequences and clock the CURRENT_TIMESTAMP source. -/
structure DBState where
  users : List Nat
  features : List Feature
  votes : List Vote
  nextFeatureId : Nat
  nextVoteId : Nat
  clock : Nat
deriving DecidableEq, Repr

/-- Outcome of one SQL transaction as the Go code observes it. -/
inductive DbOutcome where
  | ok
  | uniqueViolation
  | fkViolation
  | voteNotFound
  | featureNotFound
  | serializationFailure
deriving DecidableEq, Repr

/-- Predicate of the WHERE clause user_id = u AND feature_id = f. -/
def matchUF (u f : Nat) (v : Vote) : Bool :=
  v.userId == u && v.featureId == f

/-- Predicate of the WHERE clause id = f on the features table. -/
def featureIdIs (f : Nat) (ft : Feature) : Bool :=
  ft.id == f

/-- Effect of UPDATE features SET vote_count = vote_count + d WHERE id = fid
(also the body of the increment / decrement trigger functions). -/
def bumpVoteCount (fs : List Feature) (fid : Nat) (d : Int) : List Feature :=
  fs.map fun ft => if featureIdIs fid ft then { ft with voteCount := ft.voteCount + d } else ft

/-- Effect of INSERT INTO votes (user_id, feature_id) VALUES (u, f):
fails on the UNIQUE(user_id, feature_id) constraint or a missing
foreign key, otherwise appends the row and fires the
vote_count_increment trigger (vote_count + 1 on the feature). -/
def insertVote (s : DBState) (u f : Nat) : DbOutcome × DBState :=
  if s.votes.any (matchUF u f) then (.uniqueViolation, s)
  else if !(s.users.contains u) then (.fkViolation, s)
  else if !(s.features.any (featureIdIs f)) then (.fkViolation, s)
  else
    (.ok, { s with
      votes := s.votes ++ [{ id := s.nextVoteId, userId := u, featureId := f,
                             createdAt := s.clock }]
      nextVoteId := s.nextVoteId + 1
      clock := s.clock + 1
      features := bumpVoteCount s.features f 1 })

/-- Effect of DELETE FROM votes WHERE user_id = u AND feature_id = f:
returns the number of rows affected; the vote_count_decrement trigger
fires once per deleted row. -/
def deleteVote (s : DBState) (u f : Nat) : Nat × DBState :=
  let k := (s.votes.filter (matchUF u f)).length
  (k, { s with
    votes := s.votes.filter fun v => !(matchUF u f v)
    features := bumpVoteCount s.features f (-(k : Int)) })

/-- Effect of DELETE FROM votes WHERE feature_id = f (used by the
adapter Delete); the decrement trigger fires once per deleted row. -/
def deleteVotesOfFeature (s : DBState) (f : Nat) : DBState :=
  let k := (s.votes.filter fun v => v.featureId == f).length
  { s with
    votes := s.votes.filter fun v => !(v.featureId == f)
    features := bumpVoteCount s.features f (-(k : Int)) }

/-- Stored vote_count of feature f, i.e. the result of
SELECT vote_count FROM features WHERE id = f (0 if the row is gone). -/
def voteCountList (fs : List Feature) (f : Nat) : Int :=
  ((fs.find? (featureIdIs f)).map Feature.voteCount).getD 0

/-- Stored vote_count of feature f inside a full state. -/
def voteCountOf (s : DBState) (f : Nat) : Int :=
  voteCountList s.features f

/-- Number of vote rows whose feature_id is f:
COUNT(votes WHERE votes.feature_id = f). -/
def votesFor (s : DBState) (f : Nat) : Nat :=
  (s.votes.filter fun v => v.featureId == f).length

namespace Postgres

/-- FeatureRepository.FeatureExists:
SELECT EXISTS(SELECT 1 FROM features WHERE id = $1). -/
def FeatureExists (s : DBState) (f : Nat) : Bool :=
  s.features.any (featureIdIs f)

/-- FeatureRepository.HasUserVoted:
SELECT EXISTS(SELECT 1 FROM votes WHERE user_id = $1 AND feature_id = $2). -/
def HasUserVoted (s : DBState) (u f : Nat) : Bool :=
  s.votes.any (matchUF u f)

/-- FeatureRepository.Create (adapters/postgres): INSERT INTO features
(title, description, created_by) VALUES ... RETURNING id, vote_count
(vote_count starts at the schema default 0). -/
def Create (s : DBState) (title description : String) (createdBy : Nat) :
    DbOutcome × DBState :=
  if !(s.users.contains createdBy) then (.fkViolation, s)
  else
    (.ok, { s with
      features := s.features ++ [{ id := s.nextFeatureId, title := title,
                                   description := description,
                                   createdBy := createdBy, voteCount := 0 }]
      nextFeatureId := s.nextFeatureId + 1 })

/-- FeatureRepository.AddVote (adapters/postgres): one transaction that
inserts the vote row and then explicitly runs
UPDATE features SET vote_count = vote_count + 1 WHERE id = $1; any
failure rolls the whole transaction back. -/
def AddVote (s : DBState) (u f : Nat) : DbOutcome × DBState :=
  match insertVote s u f with
  | (.ok, s1) => (.ok, { s1 with features := bumpVoteCount s1.features f 1 })
  | (e, _) => (e, s)

/-- FeatureRepository.RemoveVote (adapters/postgres): one transaction
that deletes the vote row, fails with vote not found when zero rows are
affected (rolling back), and otherwise explicitly runs
UPDATE features SET vote_count = vote_count - 1 WHERE id = $1. -/
def RemoveVote (s : DBState) (u f : Nat) : DbOutcome × DBState :=
  let (k, s1) := deleteVote s u f
  if k == 0 then (.voteNotFound, s)
  else (.ok, { s1 with features := bumpVoteCount s1.features f (-1) })

/-- FeatureRepository.Delete (adapters/postgres): one transaction that
deletes all votes of the feature, then the feature row, and fails with
feature not found (rolling everything back) when the feature row was
absent. -/
def Delete (s : DBState) (f : Nat) : DbOutcome × DBState :=
  let s1 := deleteVotesOfFeature s f
  if s1.features.any (featureIdIs f) then
    (.ok, { s1 with features := s1.features.filter fun ft => !(featureIdIs f ft) })
  else (.featureNotFound, s)

/-- Ordering used by ORDER BY created_at DESC: most recent first. -/
def mostRecentFirst (a b : Vote) : Prop :=
  b.createdAt ≤ a.createdAt

instance : DecidableRel mostRecentFirst :=
  fun a b => Nat.decLe b.createdAt a.createdAt

instance : IsTotal Vote mostRecentFirst :=
  ⟨fun a b => Nat.le_total b.createdAt a.createdAt⟩

instance : IsTrans Vote mostRecentFirst :=
  ⟨fun _ _ _ hab hbc => Nat.le_trans hbc hab⟩

/-- FeatureRepository.GetUserVotes: SELECT id, user_id, feature_id,
created_at FROM votes WHERE user_id = $1 ORDER BY created_at DESC. -/
def GetUserVotes (s : DBState) (u : Nat) : List Vote :=
  List.insertionSort mostRecentFirst (s.votes.filter fun v => v.userId == u)

end Postgres

namespace Internal

/-- FeatureRepository.AddVote (internal/repository): one transaction
that only inserts the vote row; vote_count is left to the triggers. -/
def AddVote (s : DBState) (u f : Nat) : DbOutcome × DBState :=
  match insertVote s u f with
  | (.ok, s1) => (.ok, s1)
  | (e, _) => (e, s)

/-- FeatureRepository.RemoveVote (internal/repository): one transaction
that only deletes the vote row, failing with vote not found when zero
rows are affected; vote_count is left to the triggers. -/
def RemoveVote (s : DBState) (u f : Nat) : DbOutcome × DBState :=
  let (k, s1) := deleteVote s u f
  if k == 0 then (.voteNotFound, s)
  else (.ok, s1)

end Internal

/-- Summary of the JSON response of the vote handler endpoints. -/
inductive Response where
  | success (voteCount : Int) (voted : Bool)
  | featureNotFound
  | alreadyVoted
  | voteNotFound
  | internalError
deriving DecidableEq, Repr

namespace Rest

/-- VoteHandler.VoteForFeature (adapters/rest/vote_handler.go): checks
feature existence (404), then HasUserVoted (409 already voted), then
calls the repository AddVote and re-reads the feature for the returned
vote_count; repository errors surface as 500. -/
def VoteForFeature (s : DBState) (u f : Nat) : Response × DBState :=
  if !(Postgres.FeatureExists s f) then (.featureNotFound, s)
  else if Postgres.HasUserVoted s u f then (.alreadyVoted, s)
  else
    match Postgres.AddVote s u f with
    | (.ok, s1) =>
      match s1.features.find? (featureIdIs f) with
      | some ft => (.success ft.voteCount true, s1)
      | none => (.internalError, s1)
    | (_, s1) => (.internalError, s1)

/-- VoteHandler.RemoveVoteFromFeature: checks feature existence (404),
then calls the repository RemoveVote, mapping its vote-not-found error
to 404 vote not found; other errors surface as 500. -/
def RemoveVoteFromFeature (s : DBState) (u f : Nat) : Response × DBState :=
  if !(Postgres.FeatureExists s f) then (.featureNotFound, s)
  else
    match Postgres.RemoveVote s u f with
    | (.ok, s1) =>
      match s1.features.find? (featureIdIs f) with
      | some ft => (.success ft.voteCount false, s1)
      | none => (.internalError, s1)
    | (.voteNotFound, s1) => (.voteNotFound, s1)
    | (_, s1) => (.internalError, s1)

/-- VoteHandler.ToggleVote: checks feature existence (404), reads
HasUserVoted, then removes the vote when present and adds it when
absent, re-reading the feature for the returned vote_count. -/
def ToggleVote (s : DBState) (u f : Nat) : Response × DBState :=
  if !(Postgres.FeatureExists s f) then (.featureNotFound, s)
  else if Postgres.HasUserVoted s u f then
    match Postgres.RemoveVote s u f with
    | (.ok, s1) =>
      match s1.features.find? (featureIdIs f) with
      | some ft => (.success ft.voteCount false, s1)
      | none => (.internalError, s1)
    | (_, s1) => (.internalError, s1)
  else
    match Postgres.AddVote s u f with
    | (.ok, s1) =>
      match s1.features.find? (featureIdIs f) with
      | some ft => (.success ft.voteCount true, s1)
      | none => (.internalError, s1)
    | (_, s1) => (.internalError, s1)

end Rest

/-- True exactly on the 200-OK responses of the vote endpoints. -/
def Response.isSuccess : Response → Bool
  | .success _ _ => true
  | _ => false

namespace Postgres

/-- Commit behaviour of AddVote under SERIALIZABLE isolation, with the
environment made explicit: conflict n tells whether the n-th
transaction attempt the operation makes aborts with a serialization
failure.  FeatureRepository.AddVote issues exactly one transaction and
returns any error to its caller without retrying, so the attempt
counter in the result is always 1. -/
def AddVoteAttempts (conflict : Nat → Bool) (s : DBState) (u f : Nat) :
    DbOutcome × DBState × Nat :=
  if conflict 0 then (.serializationFailure, s, 1)
  else
    let (r, s1) := AddVote s u f
    (r, s1, 1)

/-- Commit behaviour of RemoveVote under SERIALIZABLE isolation with an
explicit conflict environment; like AddVote it issues exactly one
transaction and never retries. -/
def RemoveVoteAttempts (conflict : Nat → Bool) (s : DBState) (u f : Nat) :
    DbOutcome × DBState × Nat :=
  if conflict 0 then (.serializationFailure, s, 1)
  else
    let (r, s1) := RemoveVote s u f
    (r, s1, 1)

end Postgres

/-- Sequential shadow of a set of concurrent addVote calls: applies the
vote endpoint once per user in the given order (serializable isolation
makes any committed concurrent execution equivalent to such an order)
and reports whether every call returned success. -/
def runVotes (s : DBState) (f : Nat) : List Nat → DBState × Bool
  | [] => (s, true)
  | u :: rest =>
    let (r, s1) := Rest.VoteForFeature s u f
    let (s2, ok) := runVotes s1 f rest
    (s2, r.isSuccess && ok)

/-- State invariant enforced by the schema constraint
UNIQUE(user_id, feature_id): no two vote rows carry the same
(user, feature) pair. -/
def WellFormedVotes (s : DBState) : Prop :=
  s.votes.Pairwise fun a b => ¬(a.userId = b.userId ∧ a.featureId = b.featureId)

instance (s : DBState) : Decidable (WellFormedVotes s) := by
  unfold WellFormedVotes; infer_instance

/-- Two registered users and nothing else. -/
def usersState : DBState :=
  { users := [1, 2], features := [], votes := [], nextFeatureId := 1,
    nextVoteId := 1, clock := 0 }

/-- Two users and one feature (id 1) with the schema-default
vote_count 0 and no votes. -/
def baseState : DBState :=
  { usersState with
    features := [{ id := 1, title := "Dark mode", description := "add a dark theme",
                   createdBy := 1, voteCount := 0 }]
    nextFeatureId := 2 }

/-- State reached by creating a feature through the repository Create:
feature id 1, vote_count 0. -/
def scenarioState : DBState :=
  (Postgres.Create usersState "Dark mode" "add a dark theme" 1).2

/-- Feature 1 carrying committed votes from users 1 and 2 (trigger-kept
count 2), as in the cascade scenario of the spec. -/
def deleteDemoState : DBState :=
  { usersState with
    features := [{ id := 1, title := "Dark mode", description := "add a dark theme",
                   createdBy := 1, voteCount := 2 }]
    votes := [{ id := 1, userId := 1, featureId := 1, createdAt := 0 },
              { id := 2, userId := 2, featureId := 1, createdAt := 1 }]
    nextFeatureId := 2
    nextVoteId := 3
    clock := 2 }

/-- Fifty distinct user ids. -/
def fiftyUsers : List Nat := List.range 50

/-- Fifty registered users and one feature (id 0) with vote_count 0. -/
def fiftyState : DBState :=
  { users := fiftyUsers
    features := [{ id := 0, title := "Dark mode", description := "add a dark theme",
                   createdBy := 0, voteCount := 0 }]
    votes := [], nextFeatureId := 1, nextVoteId := 1, clock := 0 }

/-- State produced by a successful adapter AddVote transaction: the new
vote row is appended and the feature's stored count is raised twice,
once by the insert trigger and once by the explicit update. -/
def addVoteState (s : DBState) (u f : Nat) : DBState :=
  { s with
    votes := s.votes ++ [{ id := s.nextVoteId, userId := u, featureId := f,
                           createdAt := s.clock }]
    nextVoteId := s.nextVoteId + 1
    clock := s.clock + 1
    features := bumpVoteCount (bumpVoteCount s.features f 1) f 1 }

/-- State produced by a successful adapter RemoveVote transaction: the
matching vote rows are dropped and the feature's stored count is
lowered once per deleted row by the trigger and once more by the
explicit update. -/
def removeVoteState (s : DBState) (u f : Nat) : DBState :=
  { s with
    votes := s.votes.filter fun v => !(matchUF u f v)
    features :=
      bumpVoteCount
        (bumpVoteCount s.features f (-((s.votes.filter (matchUF u f)).length : Int)))
        f (-1) }

/-! Helper lemmas about the SQL primitives. -/

theorem featureIdIs_update (f : Nat) (ft : Feature) (d : Int) :
    featureIdIs f { ft with voteCount := ft.voteCount + d } = featureIdIs f ft := rfl

theorem find?_bumpVoteCount (fs : List Feature) (f : Nat) (d : Int) :
    (bumpVoteCount fs f d).find? (featureIdIs f)
      = (fs.find? (featureIdIs f)).map
          (fun ft => { ft with voteCount := ft.voteCount + d }) := by
  induction fs with
  | nil => rfl
  | cons a t ih =>
    simp only [bumpVoteCount, List.map_cons] at ih ⊢
    by_cases h : featureIdIs f a = true
    · rw [if_pos h, List.find?_cons_of_pos _ h,
        List.find?_cons_of_pos _ (by rw [featureIdIs_update]; exact h)]
      simp
    · rw [if_neg h, List.find?_cons_of_neg _ h, List.find?_cons_of_neg _ h]
      exact ih

theorem any_bumpVoteCount (fs : List Feature) (f : Nat) (d : Int) (g : Nat) :
    (bumpVoteCount fs f d).any (featureIdIs g) = fs.any (featureIdIs g) := by
  induction fs with
  | nil => rfl
  | cons a t ih =>
    simp only [bumpVoteCount, List.map_cons, List.any_cons] at ih ⊢
    rw [ih]
    by_cases h : featureIdIs f a = true
    · rw [if_pos h]; rfl
    · rw [if_neg h]

theorem voteCountList_bump (fs : List Feature) (f : Nat) (d : Int)
    (hex : fs.any (featureIdIs f) = true) :
    voteCountList (bumpVoteCount fs f d) f = voteCountList fs f + d := by
  cases hfind : fs.find? (featureIdIs f) with
  | none =>
    obtain ⟨ft, hmem, hft⟩ := List.any_eq_true.mp hex
    exact absurd hft (by simpa using List.find?_eq_none.mp hfind ft hmem)
  | some ft0 =>
    simp [voteCountList, find?_bumpVoteCount, hfind]

theorem find?_isSome_of_any {α : Type} (p : α → Bool) (l : List α)
    (h : l.any p = true) : ∃ x, l.find? p = some x := by
  cases hf : l.find? p with
  | none =>
    obtain ⟨x, hx, hpx⟩ := List.any_eq_true.mp h
    exact absurd hpx (by simpa using List.find?_eq_none.mp hf x hx)
  | some x => exact ⟨x, rfl⟩

theorem any_filter_not {α : Type} (p : α → Bool) (l : List α) :
    (l.filter fun v => !(p v)).any p = false := by
  rw [List.any_eq_false]
  intro x hx
  have := (List.mem_filter.mp hx).2
  simp at this
  simp [this]

theorem matchUF_iff (u f : Nat) (v : Vote) :
    matchUF u f v = true ↔ v.userId = u ∧ v.featureId = f := by
  simp [matchUF]

theorem length_filter_match_eq_one (l : List Vote) (u f : Nat)
    (hwf : l.Pairwise fun a b => ¬(a.userId = b.userId ∧ a.featureId = b.featureId))
    (hv : l.any (matchUF u f) = true) :
    (l.filter (matchUF u f)).length = 1 := by
  induction l with
  | nil => simp at hv
  | cons a t ih =>
    rcases List.pairwise_cons.mp hwf with ⟨ha, ht⟩
    by_cases h : matchUF u f a = true
    · have htail : t.filter (matchUF u f) = [] := by
        rw [List.filter_eq_nil_iff]
        intro b hb hmb
        rcases (matchUF_iff u f a).mp h with ⟨hau, haf⟩
        rcases (matchUF_iff u f b).mp hmb with ⟨hbu, hbf⟩
        exact ha b hb ⟨hau.trans hbu.symm, haf.trans hbf.symm⟩
      simp [List.filter_cons, h, htail]
    · have hv2 : t.any (matchUF u f) = true := by
        rcases List.any_eq_true.mp hv with ⟨x, hx, hpx⟩
        rcases List.mem_cons.mp hx with rfl | hxt
        · exact absurd hpx h
        · exact List.any_eq_true.mpr ⟨x, hxt, hpx⟩
      simpa [List.filter_cons, h] using ih ht hv2

theorem Postgres.AddVote_success_eq (s : DBState) (u f : Nat)
    (hv : Postgres.HasUserVoted s u f = false)
    (hu : s.users.contains u = true)
    (hex : Postgres.FeatureExists s f = true) :
    Postgres.AddVote s u f = (.ok, addVoteState s u f) := by
  simp only [Postgres.HasUserVoted] at hv
  simp only [Postgres.FeatureExists] at hex
  have hu2 : u ∈ s.users := by simpa using hu
  simp [Postgres.AddVote, insertVote, hv, hu2, hex, addVoteState]

theorem Postgres.AddVote_dup_eq (s : DBState) (u f : Nat)
    (hv : Postgres.HasUserVoted s u f = true) :
    Postgres.AddVote s u f = (.uniqueViolation, s) := by
  simp only [Postgres.HasUserVoted] at hv
  simp [Postgres.AddVote, insertVote, hv]

theorem Postgres.RemoveVote_notFound_eq (s : DBState) (u f : Nat)
    (hv : Postgres.HasUserVoted s u f = false) :
    Postgres.RemoveVote s u f = (.voteNotFound, s) := by
  simp only [Postgres.HasUserVoted] at hv
  have hfil : s.votes.filter (matchUF u f) = [] := by
    rw [List.filter_eq_nil_iff]
    intro a ha hma
    exact (List.any_eq_false.mp hv a ha) hma
  simp [Postgres.RemoveVote, deleteVote, hfil]

theorem Postgres.RemoveVote_success_eq (s : DBState) (u f : Nat)
    (hv : Postgres.HasUserVoted s u f = true) :
    Postgres.RemoveVote s u f = (.ok, removeVoteState s u f) := by
  have hk : (s.votes.filter (matchUF u f)).length ≠ 0 := by
    simp only [Postgres.HasUserVoted] at hv
    rcases List.any_eq_true.mp hv with ⟨x, hx, hpx⟩
    have hxm : x ∈ s.votes.filter (matchUF u f) := List.mem_filter.mpr ⟨hx, hpx⟩
    intro h0
    rw [List.length_eq_zero] at h0
    simp [h0] at hxm
  simp [Postgres.RemoveVote, deleteVote, removeVoteState, hk]

theorem featureExists_addVoteState (s : DBState) (u f g : Nat) :
    Postgres.FeatureExists (addVoteState s u f) g = Postgres.FeatureExists s g := by
  simp [Postgres.FeatureExists, addVoteState, any_bumpVoteCount]

theorem voteCountOf_addVoteState (s : DBState) (u f : Nat)
    (hex : Postgres.FeatureExists s f = true) :
    voteCountOf (addVoteState s u f) f = voteCountOf s f + 2 := by
  simp only [Postgres.FeatureExists] at hex
  have h1 : (bumpVoteCount s.features f 1).any (featureIdIs f) = true := by
    rw [any_bumpVoteCount]; exact hex
  show voteCountList (bumpVoteCount (bumpVoteCount s.features f 1) f 1) f = _
  rw [voteCountList_bump _ _ _ h1, voteCountList_bump _ _ _ hex]
  show voteCountOf s f + 1 + 1 = voteCountOf s f + 2
  omega

theorem hasUserVoted_addVoteState_self (s : DBState) (u f : Nat) :
    Postgres.HasUserVoted (addVoteState s u f) u f = true := by
  simp [Postgres.HasUserVoted, addVoteState, matchUF]

theorem hasUserVoted_addVoteState_other (s : DBState) (u f u2 g : Nat)
    (hne : u2 ≠ u) :
    Postgres.HasUserVoted (addVoteState s u f) u2 g = Postgres.HasUserVoted s u2 g := by
  simp [Postgres.HasUserVoted, addVoteState, matchUF, Ne.symm hne]

theorem votesFor_addVoteState (s : DBState) (u f : Nat) :
    votesFor (addVoteState s u f) f = votesFor s f + 1 := by
  simp [votesFor, addVoteState]

theorem users_addVoteState (s : DBState) (u f : Nat) :
    (addVoteState s u f).users = s.users := rfl

theorem featureExists_removeVoteState (s : DBState) (u f g : Nat) :
    Postgres.FeatureExists (removeVoteState s u f) g = Postgres.FeatureExists s g := by
  simp [Postgres.FeatureExists, removeVoteState, any_bumpVoteCount]

theorem hasUserVoted_removeVoteState_self (s : DBState) (u f : Nat) :
    Postgres.HasUserVoted (removeVoteState s u f) u f = false := by
  simp only [Postgres.HasUserVoted, removeVoteState]
  exact any_filter_not (matchUF u f) s.votes

theorem voteCountOf_removeVoteState (s : DBState) (u f : Nat)
    (hex : Postgres.FeatureExists s f = true)
    (hk : (s.votes.filter (matchUF u f)).length = 1) :
    voteCountOf (removeVoteState s u f) f = voteCountOf s f - 2 := by
  simp only [Postgres.FeatureExists] at hex
  have h1 : (bumpVoteCount s.features f
      (-((s.votes.filter (matchUF u f)).length : Int))).any (featureIdIs f) = true := by
    rw [any_bumpVoteCount]; exact hex
  simp only [voteCountOf, removeVoteState]
  rw [voteCountList_bump _ _ _ h1, voteCountList_bump _ _ _ hex, hk]
  omega

theorem Rest.VoteForFeature_success_eq (s : DBState) (u f : Nat)
    (hex : Postgres.FeatureExists s f = true)
    (hu : s.users.contains u = true)
    (hv : Postgres.HasUserVoted s u f = false) :
    Rest.VoteForFeature s u f =
      (.success (voteCountOf (addVoteState s u f) f) true, addVoteState s u f) := by
  have hadd := Postgres.AddVote_success_eq s u f hv hu hex
  have hex2 : (addVoteState s u f).features.any (featureIdIs f) = true := by
    have := featureExists_addVoteState s u f f
    simp only [Postgres.FeatureExists] at this
    rw [this]
    simpa [Postgres.FeatureExists] using hex
  obtain ⟨ft, hft⟩ := find?_isSome_of_any _ _ hex2
  simp [Rest.VoteForFeature, hex, hv, hadd, hft, voteCountOf, voteCountList]

/-! Claim theorems. -/

/-- C1: evaluation of the code at the failing input.  On the
trigger-bearing schema, one successful addVote for a fresh feature
(stored count 0, no votes) commits exactly one vote row but a stored
vote_count of 2 — the AFTER INSERT trigger and the explicit
UPDATE features SET vote_count = vote_count + 1 both fire — so the
claimed invariant vote_count = COUNT(votes of the feature) is violated
by the code. -/
theorem C1_invariant_violated_at_failing_input :
    (Rest.VoteForFeature baseState 1 1).1 = .success 2 true ∧
    votesFor (Rest.VoteForFeature baseState 1 1).2 1 = 1 ∧
    voteCountOf (Rest.VoteForFeature baseState 1 1).2 1 = 2 ∧
    voteCountOf (Rest.VoteForFeature baseState 1 1).2 1 ≠
      ((votesFor (Rest.VoteForFeature baseState 1 1).2 1 : Nat) : Int) := by
  refine ⟨rfl, rfl, rfl, ?_⟩
  decide

/-- C6: counterexample to the claimed counts.  In the scenario state
(feature freshly created with count 0), user A's first vote already
yields a stored count of 2, not the claimed 1. -/
theorem C6_counterexample_first_step_count :
    (Rest.VoteForFeature scenarioState 1 1).1 = .success 2 true ∧
    voteCountOf (Rest.VoteForFeature scenarioState 1 1).2 1 = 2 ∧
    (2 : Int) ≠ 1 := by
  refine ⟨rfl, rfl, ?_⟩
  decide

/-- C6 amended: the scenario addVote(A); addVote(B); removeVote(A);
addVote(A) against a freshly created feature succeeds at every step
with stored counts 2, 4, 2, 4 (twice the claimed 1, 2, 1, 2, because
trigger and explicit update compound), hasVoted(A) is true after A's
first vote and false after A's unvote, and the final addVote(A) is a
success rather than AlreadyVoted. -/
theorem C6_amended_scenario_counts_doubled :
    (Rest.VoteForFeature scenarioState 1 1).1 = .success 2 true ∧
    Postgres.HasUserVoted (Rest.VoteForFeature scenarioState 1 1).2 1 1 = true ∧
    (Rest.VoteForFeature (Rest.VoteForFeature scenarioState 1 1).2 2 1).1
      = .success 4 true ∧
    (Rest.RemoveVoteFromFeature
      (Rest.VoteForFeature (Rest.VoteForFeature scenarioState 1 1).2 2 1).2 1 1).1
      = .success 2 false ∧
    Postgres.HasUserVoted
      (Rest.RemoveVoteFromFeature
        (Rest.VoteForFeature (Rest.VoteForFeature scenarioState 1 1).2 2 1).2 1 1).2 1 1
      = false ∧
    (Rest.VoteForFeature
      (Rest.RemoveVoteFromFeature
        (Rest.VoteForFeature (Rest.VoteForFeature scenarioState 1 1).2 2 1).2 1 1).2 1 1).1
      = .success 4 true := by
  exact ⟨rfl, rfl, rfl, rfl, rfl, rfl⟩

/-- C7: counterexample to the claimed internal retry.  When the first
(and only) transaction attempt of AddVote aborts with a serialization
failure, the operation surfaces the failure after exactly one attempt
— even though the very same call would succeed if retried once, as the
second conjunct shows — so no internal retry exists. -/
theorem C7_counterexample_no_retry :
    Postgres.AddVoteAttempts (fun n => n == 0) baseState 1 1
      = (.serializationFailure, baseState, 1) ∧
    (Postgres.AddVote baseState 1 1).1 = .ok := by
  exact ⟨rfl, rfl⟩

/-- C10: counterexample to behavioural equivalence.  From the same
committed state, both AddVote implementations succeed and produce the
same vote rows, but the internal implementation leaves the feature's
stored count at 1 (trigger only) while the adapter leaves it at 2
(trigger plus explicit update), so the resulting states differ. -/
theorem C10_counterexample_counts_differ :
    (Internal.AddVote baseState 1 1).1 = .ok ∧
    (Postgres.AddVote baseState 1 1).1 = .ok ∧
    voteCountOf (Internal.AddVote baseState 1 1).2 1 = 1 ∧
    voteCountOf (Postgres.AddVote baseState 1 1).2 1 = 2 ∧
    (Internal.AddVote baseState 1 1).2 ≠ (Postgres.AddVote baseState 1 1).2 := by
  refine ⟨rfl, rfl, rfl, rfl, ?_⟩
  decide

set_option maxRecDepth 10000 in
/-- C8: counterexample to the claimed final count of 50.  Replaying the
fifty distinct users' addVote calls in a serial order (to which any
committed serializable execution is equivalent) makes every call
succeed, but the final stored vote_count is 100, not 50: each vote adds
2 because the insert trigger and the explicit update compound. -/
theorem C8_counterexample_final_count_100 :
    (runVotes fiftyState 0 fiftyUsers).2 = true ∧
    votesFor (runVotes fiftyState 0 fiftyUsers).1 0 = 50 ∧
    voteCountOf (runVotes fiftyState 0 fiftyUsers).1 0 = 100 ∧
    (100 : Int) ≠ 50 := by
  refine ⟨rfl, rfl, rfl, ?_⟩
  decide

theorem filter_of_filter_not {α : Type} (p : α → Bool) (l : List α) :
    ((l.filter fun a => !(p a)).filter p) = [] :=
  List.filter_eq_nil_iff.mpr (List.any_eq_false.mp (any_filter_not p l))

theorem length_filter_not_add {α : Type} (p : α → Bool) (l : List α) :
    (l.filter fun a => !(p a)).length + (l.filter p).length = l.length := by
  induction l with
  | nil => rfl
  | cons a t ih =>
    by_cases h : p a = true
    · simp only [List.filter_cons, h]
      simp [ih]
      omega
    · simp only [List.filter_cons, h]
      simp [h, ih]
      omega

theorem users_removeVoteState (s : DBState) (u f : Nat) :
    (removeVoteState s u f).users = s.users := rfl

theorem Rest.ToggleVote_add_eq (s : DBState) (u f : Nat)
    (hex : Postgres.FeatureExists s f = true)
    (hu : s.users.contains u = true)
    (hv : Postgres.HasUserVoted s u f = false) :
    Rest.ToggleVote s u f =
      (.success (voteCountOf (addVoteState s u f) f) true, addVoteState s u f) := by
  have hadd := Postgres.AddVote_success_eq s u f hv hu hex
  have hex2 : (addVoteState s u f).features.any (featureIdIs f) = true := by
    have := featureExists_addVoteState s u f f
    simp only [Postgres.FeatureExists] at this
    rw [this]
    simpa [Postgres.FeatureExists] using hex
  obtain ⟨ft, hft⟩ := find?_isSome_of_any _ _ hex2
  simp [Rest.ToggleVote, hex, hv, hadd, hft, voteCountOf, voteCountList]

theorem Rest.ToggleVote_remove_eq (s : DBState) (u f : Nat)
    (hex : Postgres.FeatureExists s f = true)
    (hv : Postgres.HasUserVoted s u f = true) :
    Rest.ToggleVote s u f =
      (.success (voteCountOf (removeVoteState s u f) f) false, removeVoteState s u f) := by
  have hrem := Postgres.RemoveVote_success_eq s u f hv
  have hex2 : (removeVoteState s u f).features.any (featureIdIs f) = true := by
    have := featureExists_removeVoteState s u f f
    simp only [Postgres.FeatureExists] at this
    rw [this]
    simpa [Postgres.FeatureExists] using hex
  obtain ⟨ft, hft⟩ := find?_isSome_of_any _ _ hex2
  simp [Rest.ToggleVote, hex, hv, hrem, hft, voteCountOf, voteCountList]

/-- C2 amended: for every state, addVote through the vote endpoint
returns AlreadyVoted (state untouched) when the (user, feature) vote
already exists, FeatureNotFound when the feature is absent, and
otherwise inserts exactly one vote row (U, F) and raises F's stored
vote_count by 2 — not by 1 — because the insert trigger and the
explicit update compound on the trigger-bearing schema. -/
theorem C2_amended_addVote_contract (s : DBState) (u f : Nat) :
    (Postgres.FeatureExists s f = false →
      Rest.VoteForFeature s u f = (.featureNotFound, s)) ∧
    (Postgres.FeatureExists s f = true → Postgres.HasUserVoted s u f = true →
      Rest.VoteForFeature s u f = (.alreadyVoted, s)) ∧
    (Postgres.FeatureExists s f = true → Postgres.HasUserVoted s u f = false →
      s.users.contains u = true →
      (Rest.VoteForFeature s u f).1 = .success (voteCountOf s f + 2) true ∧
      (Rest.VoteForFeature s u f).2.votes =
        s.votes ++ [{ id := s.nextVoteId, userId := u, featureId := f,
                      createdAt := s.clock }] ∧
      voteCountOf (Rest.VoteForFeature s u f).2 f = voteCountOf s f + 2) := by
  refine ⟨?_, ?_, ?_⟩
  · intro hex
    simp [Rest.VoteForFeature, hex]
  · intro hex hv
    simp [Rest.VoteForFeature, hex, hv]
  · intro hex hv hu
    rw [Rest.VoteForFeature_success_eq s u f hex hu hv]
    exact ⟨by rw [voteCountOf_addVoteState s u f hex], rfl,
      voteCountOf_addVoteState s u f hex⟩

/-- C2 witness: the three branches at concrete inputs. -/
theorem C2_amended_witness :
    Rest.VoteForFeature baseState 1 99 = (.featureNotFound, baseState) ∧
    Rest.VoteForFeature deleteDemoState 1 1 = (.alreadyVoted, deleteDemoState) ∧
    (Rest.VoteForFeature baseState 1 1).1 = .success (voteCountOf baseState 1 + 2) true :=
  ⟨(C2_amended_addVote_contract baseState 1 99).1 (by decide),
   (C2_amended_addVote_contract deleteDemoState 1 1).2.1 (by decide) (by decide),
   ((C2_amended_addVote_contract baseState 1 1).2.2 (by decide) (by decide)
      (by decide)).1⟩

/-- C3 amended: for every state, the adapter RemoveVote fails with
VoteNotFound and returns the state untouched when no (U, F) vote row
exists; when the vote exists it succeeds in one transaction, deleting
exactly that vote row and (under the schema's uniqueness invariant, for
an existing feature) lowering F's stored vote_count by 2 — not by 1 —
because the delete trigger and the explicit update compound. -/
theorem C3_amended_removeVote_contract (s : DBState) (u f : Nat) :
    (Postgres.HasUserVoted s u f = false →
      Postgres.RemoveVote s u f = (.voteNotFound, s)) ∧
    (Postgres.HasUserVoted s u f = true →
      (Postgres.RemoveVote s u f).1 = .ok ∧
      (Postgres.RemoveVote s u f).2.votes =
        s.votes.filter (fun v => !(matchUF u f v)) ∧
      (WellFormedVotes s →
        (Postgres.RemoveVote s u f).2.votes.length + 1 = s.votes.length ∧
        (Postgres.FeatureExists s f = true →
          voteCountOf (Postgres.RemoveVote s u f).2 f = voteCountOf s f - 2))) := by
  refine ⟨fun hv => Postgres.RemoveVote_notFound_eq s u f hv, fun hv => ?_⟩
  rw [Postgres.RemoveVote_success_eq s u f hv]
  refine ⟨rfl, rfl, fun hwf => ?_⟩
  have hk : (s.votes.filter (matchUF u f)).length = 1 :=
    length_filter_match_eq_one s.votes u f hwf
      (by simpa [Postgres.HasUserVoted] using hv)
  constructor
  · have hsplit := length_filter_not_add (matchUF u f) s.votes
    show (removeVoteState s u f).votes.length + 1 = s.votes.length
    simp only [removeVoteState]
    omega
  · intro hex
    exact voteCountOf_removeVoteState s u f hex hk

/-- C3 witness: both branches at concrete inputs. -/
theorem C3_amended_witness :
    Postgres.RemoveVote baseState 1 1 = (.voteNotFound, baseState) ∧
    (Postgres.RemoveVote deleteDemoState 1 1).1 = .ok ∧
    voteCountOf (Postgres.RemoveVote deleteDemoState 1 1).2 1 =
      voteCountOf deleteDemoState 1 - 2 :=
  ⟨(C3_amended_removeVote_contract baseState 1 1).1 (by decide),
   ((C3_amended_removeVote_contract deleteDemoState 1 1).2 (by decide)).1,
   ((((C3_amended_removeVote_contract deleteDemoState 1 1).2 (by decide)).2.2
      (by decide)).2 (by decide))⟩

/-- C9: listVotesByUser returns exactly the votes cast by the user —
a permutation of the rows of the votes table whose user_id matches —
ordered most-recent-first (non-increasing created_at), and being a pure
function of the committed state it has no side effects. -/
theorem C9_list_votes_by_user_exact_sorted (s : DBState) (u : Nat) :
    (Postgres.GetUserVotes s u).Perm (s.votes.filter fun v => v.userId == u) ∧
    List.Sorted Postgres.mostRecentFirst (Postgres.GetUserVotes s u) :=
  ⟨List.perm_insertionSort _ _, List.sorted_insertionSort _ _⟩

/-- C4: deleting an existing feature removes, in one transaction, every
vote row referencing it together with the feature row itself, so that
afterwards no vote for the feature remains, the feature no longer
exists, and HasUserVoted is false for every user; deleting an absent
feature fails with feature not found and leaves the state untouched. -/
theorem C4_delete_cascade_no_orphans (s : DBState) (f : Nat) :
    (Postgres.FeatureExists s f = true →
      (Postgres.Delete s f).1 = .ok ∧
      (Postgres.Delete s f).2.votes = s.votes.filter (fun v => !(v.featureId == f)) ∧
      votesFor (Postgres.Delete s f).2 f = 0 ∧
      Postgres.FeatureExists (Postgres.Delete s f).2 f = false ∧
      (∀ u, Postgres.HasUserVoted (Postgres.Delete s f).2 u f = false)) ∧
    (Postgres.FeatureExists s f = false →
      Postgres.Delete s f = (.featureNotFound, s)) := by
  have hcond : (deleteVotesOfFeature s f).features.any (featureIdIs f)
      = Postgres.FeatureExists s f := by
    simp [deleteVotesOfFeature, any_bumpVoteCount, Postgres.FeatureExists]
  constructor
  · intro hex
    have hdel : Postgres.Delete s f =
        (.ok, { deleteVotesOfFeature s f with
                features := (deleteVotesOfFeature s f).features.filter
                  fun ft => !(featureIdIs f ft) }) := by
      simp only [Postgres.Delete]
      rw [hcond, hex]
      simp
    rw [hdel]
    refine ⟨rfl, rfl, ?_, ?_, ?_⟩
    · show ((s.votes.filter fun v => !(v.featureId == f)).filter
        fun v => v.featureId == f).length = 0
      rw [filter_of_filter_not (fun v => v.featureId == f) s.votes]
      rfl
    · show ((deleteVotesOfFeature s f).features.filter
        fun ft => !(featureIdIs f ft)).any (featureIdIs f) = false
      exact any_filter_not (featureIdIs f) _
    · intro u
      show ((s.votes.filter fun v => !(v.featureId == f)).any (matchUF u f)) = false
      rw [List.any_eq_false]
      intro x hx
      have hxf : (x.featureId == f) = false := by
        have := (List.mem_filter.mp hx).2
        simpa using this
      simp [matchUF, hxf]
  · intro hex
    simp only [Postgres.Delete]
    rw [hcond, hex]
    simp

/-- C4 witness: deleting feature 1, which carries two votes, succeeds
and leaves neither vote rows nor a positive HasUserVoted behind; a
second delete on the resulting state fails with feature not found. -/
theorem C4_witness :
    (Postgres.Delete deleteDemoState 1).1 = .ok ∧
    votesFor (Postgres.Delete deleteDemoState 1).2 1 = 0 ∧
    Postgres.HasUserVoted (Postgres.Delete deleteDemoState 1).2 1 1 = false ∧
    Postgres.HasUserVoted (Postgres.Delete deleteDemoState 1).2 2 1 = false ∧
    Postgres.Delete baseState 99 = (.featureNotFound, baseState) :=
  ⟨((C4_delete_cascade_no_orphans deleteDemoState 1).1 (by decide)).1,
   ((C4_delete_cascade_no_orphans deleteDemoState 1).1 (by decide)).2.2.1,
   ((C4_delete_cascade_no_orphans deleteDemoState 1).1 (by decide)).2.2.2.2 1,
   ((C4_delete_cascade_no_orphans deleteDemoState 1).1 (by decide)).2.2.2.2 2,
   (C4_delete_cascade_no_orphans baseState 99).2 (by decide)⟩

/-- C5: toggling the same (user, feature) twice with no interleaving
returns the pair to its original voted state and the feature to its
original stored vote_count, for any well-formed state in which the
feature exists and the user is registered; the double increment and
double decrement of the two toggles cancel exactly. -/
theorem C5_toggle_twice_restores (s : DBState) (u f : Nat)
    (hwf : WellFormedVotes s)
    (hex : Postgres.FeatureExists s f = true)
    (hu : s.users.contains u = true) :
    Postgres.HasUserVoted (Rest.ToggleVote (Rest.ToggleVote s u f).2 u f).2 u f
      = Postgres.HasUserVoted s u f ∧
    voteCountOf (Rest.ToggleVote (Rest.ToggleVote s u f).2 u f).2 f
      = voteCountOf s f := by
  by_cases hv : Postgres.HasUserVoted s u f = true
  · -- voted: first toggle removes, second re-adds
    have ht1 := Rest.ToggleVote_remove_eq s u f hex hv
    have hk : (s.votes.filter (matchUF u f)).length = 1 :=
      length_filter_match_eq_one s.votes u f hwf
        (by simpa [Postgres.HasUserVoted] using hv)
    have hex1 : Postgres.FeatureExists (removeVoteState s u f) f = true := by
      rw [featureExists_removeVoteState]; exact hex
    have hu1 : (removeVoteState s u f).users.contains u = true := by
      rw [users_removeVoteState]; exact hu
    have hv1 : Postgres.HasUserVoted (removeVoteState s u f) u f = false :=
      hasUserVoted_removeVoteState_self s u f
    have ht2 := Rest.ToggleVote_add_eq (removeVoteState s u f) u f hex1 hu1 hv1
    have hstate : (Rest.ToggleVote (Rest.ToggleVote s u f).2 u f).2
        = addVoteState (removeVoteState s u f) u f := by
      rw [ht1]
      show (Rest.ToggleVote (removeVoteState s u f) u f).2 = _
      rw [ht2]
    rw [hstate]
    constructor
    · rw [hasUserVoted_addVoteState_self, hv]
    · rw [voteCountOf_addVoteState _ u f hex1,
        voteCountOf_removeVoteState s u f hex hk]
      omega
  · -- not voted: first toggle adds, second removes
    have hv2 : Postgres.HasUserVoted s u f = false := by
      cases h : Postgres.HasUserVoted s u f
      · rfl
      · exact absurd h hv
    have ht1 := Rest.ToggleVote_add_eq s u f hex hu hv2
    have hex1 : Postgres.FeatureExists (addVoteState s u f) f = true := by
      rw [featureExists_addVoteState]; exact hex
    have hv1 : Postgres.HasUserVoted (addVoteState s u f) u f = true :=
      hasUserVoted_addVoteState_self s u f
    have ht2 := Rest.ToggleVote_remove_eq (addVoteState s u f) u f hex1 hv1
    have hfil : s.votes.filter (matchUF u f) = [] := by
      rw [List.filter_eq_nil_iff]
      intro a ha hma
      exact (List.any_eq_false.mp
        (by simpa [Postgres.HasUserVoted] using hv2) a ha) hma
    have hAvotes : (addVoteState s u f).votes
        = s.votes ++ [(⟨s.nextVoteId, u, f, s.clock⟩ : Vote)] := rfl
    have hk1 : ((addVoteState s u f).votes.filter (matchUF u f)).length = 1 := by
      rw [hAvotes, List.filter_append, hfil]
      simp [matchUF]
    have hstate : (Rest.ToggleVote (Rest.ToggleVote s u f).2 u f).2
        = removeVoteState (addVoteState s u f) u f := by
      rw [ht1]
      show (Rest.ToggleVote (addVoteState s u f) u f).2 = _
      rw [ht2]
    rw [hstate]
    constructor
    · rw [hasUserVoted_removeVoteState_self, hv2]
    · rw [voteCountOf_removeVoteState _ u f hex1 hk1,
        voteCountOf_addVoteState s u f hex]
      omega

/-- C5 witness: toggling twice from the empty-votes base state restores
the unvoted state and the stored count. -/
theorem C5_witness :
    Postgres.HasUserVoted
        (Rest.ToggleVote (Rest.ToggleVote baseState 1 1).2 1 1).2 1 1
      = Postgres.HasUserVoted baseState 1 1 ∧
    voteCountOf (Rest.ToggleVote (Rest.ToggleVote baseState 1 1).2 1 1).2 1
      = voteCountOf baseState 1 :=
  C5_toggle_twice_restores baseState 1 1 (by decide) (by decide) (by decide)

/-- C7 amended: neither AddVote nor RemoveVote retries: each issues
exactly one transaction, and a serialization failure on that single
attempt is surfaced to the caller immediately (state rolled back);
AlreadyVoted and VoteNotFound are terminal outcomes the handler reports
as-is with the state untouched. -/
theorem C7_amended_no_internal_retry (conflict : Nat → Bool) (s : DBState)
    (u f : Nat) :
    (Postgres.AddVoteAttempts conflict s u f).2.2 = 1 ∧
    (Postgres.RemoveVoteAttempts conflict s u f).2.2 = 1 ∧
    (conflict 0 = true →
      Postgres.AddVoteAttempts conflict s u f = (.serializationFailure, s, 1) ∧
      Postgres.RemoveVoteAttempts conflict s u f = (.serializationFailure, s, 1)) ∧
    (Postgres.FeatureExists s f = true → Postgres.HasUserVoted s u f = true →
      Rest.VoteForFeature s u f = (.alreadyVoted, s)) ∧
    (Postgres.FeatureExists s f = true → Postgres.HasUserVoted s u f = false →
      Rest.RemoveVoteFromFeature s u f = (.voteNotFound, s)) := by
  refine ⟨?_, ?_, ?_, ?_, ?_⟩
  · by_cases hc : conflict 0 = true
    · simp [Postgres.AddVoteAttempts, hc]
    · simp [Postgres.AddVoteAttempts, hc]
  · by_cases hc : conflict 0 = true
    · simp [Postgres.RemoveVoteAttempts, hc]
    · simp [Postgres.RemoveVoteAttempts, hc]
  · intro hc
    constructor
    · simp [Postgres.AddVoteAttempts, hc]
    · simp [Postgres.RemoveVoteAttempts, hc]
  · intro hex hv
    simp [Rest.VoteForFeature, hex, hv]
  · intro hex hv
    have hnf := Postgres.RemoveVote_notFound_eq s u f hv
    simp [Rest.RemoveVoteFromFeature, hex, hnf]

/-- C7 witness: a conflicting single attempt is surfaced unretried, and
a duplicate vote is reported as AlreadyVoted with the state untouched. -/
theorem C7_amended_witness :
    Postgres.AddVoteAttempts (fun _ => true) deleteDemoState 1 1
      = (.serializationFailure, deleteDemoState, 1) ∧
    Rest.VoteForFeature deleteDemoState 1 1 = (.alreadyVoted, deleteDemoState) ∧
    Rest.RemoveVoteFromFeature baseState 1 1 = (.voteNotFound, baseState) :=
  ⟨((C7_amended_no_internal_retry (fun _ => true) deleteDemoState 1 1).2.2.1
      rfl).1,
   (C7_amended_no_internal_retry (fun _ => true) deleteDemoState 1 1).2.2.2.1
      (by decide) (by decide),
   (C7_amended_no_internal_retry (fun _ => true) baseState 1 1).2.2.2.2
      (by decide) (by decide)⟩

/-- C8 amended: replaying any set of pairwise-distinct registered users
who have not voted yet against an existing feature, in any serial order
(the serializable-equivalent schedule of the concurrent run), every
addVote call succeeds, the vote rows grow by one per user, and the
stored vote_count grows by 2 per user — 100 for 50 users, not 50 —
because the insert trigger and the explicit update compound. -/
theorem C8_amended_serial_schedule_doubles (us : List Nat) :
    ∀ (s : DBState) (f : Nat),
      us.Nodup →
      (∀ u ∈ us, s.users.contains u = true) →
      Postgres.FeatureExists s f = true →
      (∀ u ∈ us, Postgres.HasUserVoted s u f = false) →
      (runVotes s f us).2 = true ∧
      voteCountOf (runVotes s f us).1 f = voteCountOf s f + 2 * us.length ∧
      votesFor (runVotes s f us).1 f = votesFor s f + us.length := by
  induction us with
  | nil =>
    intro s f _ _ _ _
    simp [runVotes]
  | cons u rest ih =>
    intro s f hnd husers hex hnv
    have hu : s.users.contains u = true := husers u (by simp)
    have hv : Postgres.HasUserVoted s u f = false := hnv u (by simp)
    have hstep := Rest.VoteForFeature_success_eq s u f hex hu hv
    have hnd2 : rest.Nodup := (List.nodup_cons.mp hnd).2
    have hne : u ∉ rest := (List.nodup_cons.mp hnd).1
    have husers1 : ∀ x ∈ rest, (addVoteState s u f).users.contains x = true := by
      intro x hx
      rw [users_addVoteState]
      exact husers x (List.mem_cons_of_mem _ hx)
    have hex1 : Postgres.FeatureExists (addVoteState s u f) f = true := by
      rw [featureExists_addVoteState]; exact hex
    have hnv1 : ∀ x ∈ rest, Postgres.HasUserVoted (addVoteState s u f) x f = false := by
      intro x hx
      have hxne : x ≠ u := fun h => hne (h ▸ hx)
      rw [hasUserVoted_addVoteState_other s u f x f hxne]
      exact hnv x (List.mem_cons_of_mem _ hx)
    obtain ⟨hok, hcount, hrows⟩ := ih (addVoteState s u f) f hnd2 husers1 hex1 hnv1
    have hrun : runVotes s f (u :: rest)
        = ((runVotes (addVoteState s u f) f rest).1,
           ((Rest.VoteForFeature s u f).1.isSuccess
             && (runVotes (addVoteState s u f) f rest).2)) := by
      show (let (r, s1) := Rest.VoteForFeature s u f
            let (s2, ok) := runVotes s1 f rest
            (s2, r.isSuccess && ok)) = _
      rw [hstep]
    rw [hrun]
    refine ⟨?_, ?_, ?_⟩
    · rw [hstep, hok]
      rfl
    · show voteCountOf (runVotes (addVoteState s u f) f rest).1 f = _
      rw [hcount, voteCountOf_addVoteState s u f hex]
      simp [List.length_cons]
      ring
    · show votesFor (runVotes (addVoteState s u f) f rest).1 f = _
      rw [hrows, votesFor_addVoteState]
      simp [List.length_cons]
      omega

/-- C8 witness: three of the fifty users replayed serially all succeed,
adding three vote rows and six to the stored count. -/
theorem C8_amended_witness :
    (runVotes fiftyState 0 [5, 6, 7]).2 = true ∧
    voteCountOf (runVotes fiftyState 0 [5, 6, 7]).1 0
      = voteCountOf fiftyState 0 + 2 * 3 ∧
    votesFor (runVotes fiftyState 0 [5, 6, 7]).1 0 = votesFor fiftyState 0 + 3 := by
  have h := C8_amended_serial_schedule_doubles [5, 6, 7] fiftyState 0
    (by decide) (by decide) (by decide) (by decide)
  simpa using h

theorem Internal.AddVote_ok_eq (s : DBState) (u f : Nat)
    (hv : Postgres.HasUserVoted s u f = false)
    (hu : s.users.contains u = true)
    (hex : Postgres.FeatureExists s f = true) :
    Internal.AddVote s u f =
      (.ok, { s with
        votes := s.votes ++ [(⟨s.nextVoteId, u, f, s.clock⟩ : Vote)]
        nextVoteId := s.nextVoteId + 1
        clock := s.clock + 1
        features := bumpVoteCount s.features f 1 }) := by
  simp only [Postgres.HasUserVoted] at hv
  simp only [Postgres.FeatureExists] at hex
  have hu2 : u ∈ s.users := by simpa using hu
  simp [Internal.AddVote, insertVote, hv, hu2, hex]

theorem Internal.RemoveVote_ok_eq (s : DBState) (u f : Nat)
    (hv : Postgres.HasUserVoted s u f = true) :
    Internal.RemoveVote s u f =
      (.ok, { s with
        votes := s.votes.filter fun v => !(matchUF u f v)
        features := bumpVoteCount s.features f
          (-((s.votes.filter (matchUF u f)).length : Int)) }) := by
  have hk : (s.votes.filter (matchUF u f)).length ≠ 0 := by
    simp only [Postgres.HasUserVoted] at hv
    rcases List.any_eq_true.mp hv with ⟨x, hx, hpx⟩
    have hxm : x ∈ s.votes.filter (matchUF u f) := List.mem_filter.mpr ⟨hx, hpx⟩
    intro h0
    rw [List.length_eq_zero] at h0
    simp [h0] at hxm
  simp [Internal.RemoveVote, deleteVote, hk]

theorem addVote_impls_compared (s : DBState) (u f : Nat) :
    (Internal.AddVote s u f).1 = (Postgres.AddVote s u f).1 ∧
    (Internal.AddVote s u f).2.votes = (Postgres.AddVote s u f).2.votes ∧
    (Postgres.FeatureExists s f = true → (Internal.AddVote s u f).1 = .ok →
      voteCountOf (Postgres.AddVote s u f).2 f
        = voteCountOf (Internal.AddVote s u f).2 f + 1) := by
  by_cases hv : Postgres.HasUserVoted s u f = true
  · have hI := Postgres.AddVote_dup_eq s u f hv
    have hv0 : s.votes.any (matchUF u f) = true := by
      simpa [Postgres.HasUserVoted] using hv
    have hJ : Internal.AddVote s u f = (.uniqueViolation, s) := by
      simp [Internal.AddVote, insertVote, hv0]
    rw [hI, hJ]
    exact ⟨rfl, rfl, by intro _ h; cases h⟩
  · have hv2 : Postgres.HasUserVoted s u f = false := by
      cases h : Postgres.HasUserVoted s u f
      · rfl
      · exact absurd h hv
    have hv0 : s.votes.any (matchUF u f) = false := by
      simpa [Postgres.HasUserVoted] using hv2
    by_cases hu : s.users.contains u = true
    · by_cases hex : Postgres.FeatureExists s f = true
      · have hP := Postgres.AddVote_success_eq s u f hv2 hu hex
        have hI := Internal.AddVote_ok_eq s u f hv2 hu hex
        rw [hP, hI]
        refine ⟨rfl, rfl, fun _ _ => ?_⟩
        have hex0 : s.features.any (featureIdIs f) = true := by
          simpa [Postgres.FeatureExists] using hex
        have hex1 : (bumpVoteCount s.features f 1).any (featureIdIs f) = true := by
          rw [any_bumpVoteCount]; exact hex0
        show voteCountOf (addVoteState s u f) f
          = voteCountList (bumpVoteCount s.features f 1) f + 1
        rw [voteCountOf_addVoteState s u f hex, voteCountList_bump _ _ _ hex0]
        show voteCountOf s f + 2 = voteCountOf s f + 1 + 1
        omega
      · have hex0 : s.features.any (featureIdIs f) = false := by
          cases h : s.features.any (featureIdIs f)
          · rfl
          · exact absurd (by simpa [Postgres.FeatureExists] using h) hex
        have hu2 : u ∈ s.users := by simpa using hu
        have hI : Internal.AddVote s u f = (.fkViolation, s) := by
          simp [Internal.AddVote, insertVote, hv0, hu2, hex0]
        have hP : Postgres.AddVote s u f = (.fkViolation, s) := by
          simp [Postgres.AddVote, insertVote, hv0, hu2, hex0]
        rw [hI, hP]
        exact ⟨rfl, rfl, by intro _ h; cases h⟩
    · have hu2 : u ∉ s.users := by
        intro hmem
        exact hu (by simpa using hmem)
      have hI : Internal.AddVote s u f = (.fkViolation, s) := by
        simp [Internal.AddVote, insertVote, hv0, hu2]
      have hP : Postgres.AddVote s u f = (.fkViolation, s) := by
        simp [Postgres.AddVote, insertVote, hv0, hu2]
      rw [hI, hP]
      exact ⟨rfl, rfl, by intro _ h; cases h⟩

theorem removeVote_impls_compared (s : DBState) (u f : Nat) :
    (Internal.RemoveVote s u f).1 = (Postgres.RemoveVote s u f).1 ∧
    (Internal.RemoveVote s u f).2.votes = (Postgres.RemoveVote s u f).2.votes ∧
    (Postgres.FeatureExists s f = true → (Internal.RemoveVote s u f).1 = .ok →
      voteCountOf (Postgres.RemoveVote s u f).2 f
        = voteCountOf (Internal.RemoveVote s u f).2 f - 1) := by
  by_cases hv : Postgres.HasUserVoted s u f = true
  · have hP := Postgres.RemoveVote_success_eq s u f hv
    have hI := Internal.RemoveVote_ok_eq s u f hv
    rw [hP, hI]
    refine ⟨rfl, rfl, fun hex _ => ?_⟩
    have hex0 : s.features.any (featureIdIs f) = true := by
      simpa [Postgres.FeatureExists] using hex
    have hex1 : (bumpVoteCount s.features f
        (-((s.votes.filter (matchUF u f)).length : Int))).any (featureIdIs f)
          = true := by
      rw [any_bumpVoteCount]; exact hex0
    show voteCountList (removeVoteState s u f).features f
      = voteCountList (bumpVoteCount s.features f
          (-((s.votes.filter (matchUF u f)).length : Int))) f - 1
    simp only [removeVoteState]
    rw [voteCountList_bump _ _ _ hex1]
    omega
  · have hv2 : Postgres.HasUserVoted s u f = false := by
      cases h : Postgres.HasUserVoted s u f
      · rfl
      · exact absurd h hv
    have hP := Postgres.RemoveVote_notFound_eq s u f hv2
    have hfil : s.votes.filter (matchUF u f) = [] := by
      rw [List.filter_eq_nil_iff]
      intro a ha hma
      exact (List.any_eq_false.mp
        (by simpa [Postgres.HasUserVoted] using hv2) a ha) hma
    have hI : Internal.RemoveVote s u f = (.voteNotFound, s) := by
      simp [Internal.RemoveVote, deleteVote, hfil]
    rw [hI, hP]
    exact ⟨rfl, rfl, by intro _ h; cases h⟩

/-- C10 amended: on the trigger-bearing schema the internal and adapter
AddVote / RemoveVote implementations agree on the transaction outcome
and on the resulting vote rows, but they are not behaviourally
equivalent on the counter: for an existing feature, every successful
adapter operation leaves the stored vote_count one further from the
internal implementation's result (two steps from the pre-state instead
of one), because the adapter adds an explicit update on top of the
trigger both implementations share. -/
theorem C10_amended_vote_set_equiv_count_differs (s : DBState) (u f : Nat) :
    (Internal.AddVote s u f).1 = (Postgres.AddVote s u f).1 ∧
    (Internal.AddVote s u f).2.votes = (Postgres.AddVote s u f).2.votes ∧
    (Internal.RemoveVote s u f).1 = (Postgres.RemoveVote s u f).1 ∧
    (Internal.RemoveVote s u f).2.votes = (Postgres.RemoveVote s u f).2.votes ∧
    (Postgres.FeatureExists s f = true → (Internal.AddVote s u f).1 = .ok →
      voteCountOf (Postgres.AddVote s u f).2 f
        = voteCountOf (Internal.AddVote s u f).2 f + 1) ∧
    (Postgres.FeatureExists s f = true → (Internal.RemoveVote s u f).1 = .ok →
      voteCountOf (Postgres.RemoveVote s u f).2 f
        = voteCountOf (Internal.RemoveVote s u f).2 f - 1) :=
  ⟨(addVote_impls_compared s u f).1,
   (addVote_impls_compared s u f).2.1,
   (removeVote_impls_compared s u f).1,
   (removeVote_impls_compared s u f).2.1,
   (addVote_impls_compared s u f).2.2,
   (removeVote_impls_compared s u f).2.2⟩

/-- C10 witness: at the base state the two AddVote results agree on the
outcome and rows, and the adapter's count exceeds the internal one by
one (2 against 1); the same at the demo state for RemoveVote (0 against
1). -/
theorem C10_amended_witness :
    (Internal.AddVote baseState 1 1).1 = (Postgres.AddVote baseState 1 1).1 ∧
    voteCountOf (Postgres.AddVote baseState 1 1).2 1
      = voteCountOf (Internal.AddVote baseState 1 1).2 1 + 1 ∧
    voteCountOf (Postgres.RemoveVote deleteDemoState 1 1).2 1
      = voteCountOf (Internal.RemoveVote deleteDemoState 1 1).2 1 - 1 :=
  ⟨(C10_amended_vote_set_equiv_count_differs baseState 1 1).1,
   (C10_amended_vote_set_equiv_count_differs baseState 1 1).2.2.2.2.1
     (by decide) (by decide),
   (C10_amended_vote_set_equiv_count_differs deleteDemoState 1 1).2.2.2.2.2
     (by decide) (by decide)⟩

/-- C2 counterexample: the success path of addVote does not increment
the stored count by one — at the base state a fresh vote leaves a
stored count of 2, refuting the claimed single increment. -/
theorem C2_counterexample_double_increment :
    (Rest.VoteForFeature baseState 2 1).1 = .success 2 true ∧
    voteCountOf (Rest.VoteForFeature baseState 2 1).2 1
      ≠ voteCountOf baseState 1 + 1 := by
  refine ⟨rfl, ?_⟩
  decide

/-- C3 counterexample: the success path of RemoveVote does not
decrement the stored count by one — removing one of the two committed
votes leaves a stored count of 0, not the claimed 1. -/
theorem C3_counterexample_double_decrement :
    (Postgres.RemoveVote deleteDemoState 2 1).1 = .ok ∧
    voteCountOf (Postgres.RemoveVote deleteDemoState 2 1).2 1
      ≠ voteCountOf deleteDemoState 1 - 1 := by
  refine ⟨rfl, ?_⟩
  decide
